import Mathlib

/-!
Verification of the Exchange-Fan-Data-Log controller
(src/mcp9808_rtc_Andee_log.ino) against its natural-language
specification.

The numeric code operates on Arduino `unsigned long` (32-bit) timestamps
and `float` ratios.  Timestamps are modelled as natural numbers with the
wrap-sensitive additions and subtractions of `calcPeriodRatio` performed
modulo 2^32, exactly as the C unsigned arithmetic does; inputs are the
values of the `unsigned long` arguments, hence below 2^32.  Float values
are modelled as exact rationals; a float division with zero divisor
yields an IEEE non-finite value, modelled as `none` where the result is
observed directly.  Inside the control loop (where the code stores the
non-finite float and keeps going) the model takes the ratio to be 0 on a
zero denominator; every theorem below that depends on a computed ratio
constrains or instantiates it away from that corner.
-/

/-- 2^32, the modulus of Arduino `unsigned long` arithmetic. -/
def U32 : ℕ := 4294967296

/-- 32-bit unsigned addition. -/
def uadd (x y : ℕ) : ℕ := (x + y) % U32

/-- 32-bit unsigned subtraction (wraps below zero). -/
def usub (x y : ℕ) : ℕ := (x + (U32 - y % U32)) % U32

theorem usub_of_le {x y : ℕ} (hyx : y ≤ x) (hx : x < U32) : usub x y = x - y := by
  unfold usub U32 at *
  omega

theorem usub_eq_zero_iff {x y : ℕ} (hy : y < U32) : usub x y = 0 ↔ x % U32 = y := by
  unfold usub U32 at *
  omega

--  Calibration values (lines 72-75 of the sketch)
def interval : ℕ := 300
def doorDelay : ℕ := 120
def maxN : ℕ := 64
def defaultPercent : ℕ := 30

/-- Embedding of `calcPeriodRatio` (lines 745-751):

    float calcPeriodRatio ( unsigned long currentT, unsigned long onT, unsigned long periodT ) \x7b
      float result;
      if (periodT > currentT)  currentT = currentT + 86400;
      if (periodT > onT)  onT = onT + 86400;
      result = ((float)(currentT - onT) / (float)(currentT - periodT));
      return result;
    \x7d

The two subtractions are unsigned and wrap; when the denominator is the
unsigned value 0 the float division has a zero divisor and produces an
IEEE non-finite value (no numeric ratio), modelled as `none`. -/
def calcPeriodRatio (currentT onT periodT : ℕ) : Option ℚ :=
  let c := if periodT > currentT then uadd currentT 86400 else currentT
  let o := if periodT > onT then uadd onT 86400 else onT
  let den := usub c periodT
  if den = 0 then none
  else some ((usub c o : ℚ) / (den : ℚ))

/-- Embedding of `calcMovingAverage` (lines 753-758):

    float calcMovingAverage (float mA, float Xi, int & count) \x7b
      if (count < maxN) count++;
      float mAout;
      mAout = (mA * (count - 1) + Xi) / count;
      return mAout;
    \x7d

`count` is passed by reference; the returned pair is (result, updated
count). -/
def calcMovingAverage (mA Xi : ℚ) (count : ℕ) : ℚ × ℕ :=
  let count := if count < maxN then count + 1 else count
  ((mA * ((count : ℚ) - 1) + Xi) / (count : ℚ), count)

/-- C3 counterexample: at the call `calcPeriodRatio 100 100 100` the
denominator (now minus periodStart, no wrap adjustment fires) is 0, yet
the function does not return the ratio 0: the division has a zero
divisor and no numeric ratio is produced at all (`none`, an IEEE
non-finite float in the C code).  The claimed clamping does not exist. -/
theorem calcPeriodRatio_zero_den_not_clamped :
    usub 100 100 = 0 ∧ calcPeriodRatio 100 100 100 = none ∧
      calcPeriodRatio 100 100 100 ≠ some 0 := by
  have hden : usub 100 100 = 0 := by decide
  have hnone : calcPeriodRatio 100 100 100 = none := by
    simp [calcPeriodRatio, hden]
  exact ⟨hden, hnone, by simp [hnone]⟩

/-- C3 amended: `calcPeriodRatio` performs no clamping.  For arguments in
the `unsigned long` range (with the wrap adjustment not overflowing),
the result is the division-by-zero marker `none` exactly when the
wrap-adjusted `now` equals `periodStart`; in every other case the
unsigned denominator is positive (a mathematically negative denominator
wraps to a large positive value) and an ordinary quotient is returned,
so a zero denominator is never resolved to the ratio 0. -/
theorem calcPeriodRatio_none_iff_den_zero (c o p : ℕ)
    (hc : c < U32) (hp : p < U32) (hadd : c + 86400 < U32) :
    calcPeriodRatio c o p = none ↔ (if p > c then c + 86400 else c) = p := by
  unfold calcPeriodRatio
  by_cases hpc : p > c
  · simp only [hpc, if_pos]
    have huadd : uadd c 86400 = c + 86400 := by
      unfold uadd
      exact Nat.mod_eq_of_lt hadd
    rw [huadd]
    have hzero := usub_eq_zero_iff (x := c + 86400) (y := p) hp
    constructor
    · intro h
      have : usub (c + 86400) p = 0 := by
        by_contra hne
        simp [hne] at h
      rw [hzero] at this
      rw [Nat.mod_eq_of_lt hadd] at this
      exact this
    · intro h
      have : usub (c + 86400) p = 0 := by
        rw [hzero, Nat.mod_eq_of_lt hadd]
        exact h
      simp [this]
  · simp only [hpc, if_neg, if_false]
    have hzero := usub_eq_zero_iff (x := c) (y := p) hp
    constructor
    · intro h
      have : usub c p = 0 := by
        by_contra hne
        simp [hne] at h
      rw [hzero] at this
      rw [Nat.mod_eq_of_lt hc] at this
      exact this
    · intro h
      have : usub c p = 0 := by
        rw [hzero, Nat.mod_eq_of_lt hc]
        exact h
      simp [this]

/-- C3 amended, witness: a concrete zero-denominator call propagates the
division-by-zero marker rather than a clamped 0. -/
theorem calcPeriodRatio_none_iff_den_zero_witness :
    calcPeriodRatio 500 300 500 = none :=
  (calcPeriodRatio_none_iff_den_zero 500 300 500 (by decide) (by decide)
    (by decide)).mpr (by decide)

/-- C4: `calcPeriodRatio` handles midnight wraparound: whenever
`periodStart > now`, 86400 is added to `now` before subtracting, so the
wrapped call yields the same ratio as the unwrapped call with
`now + 86400`; similarly, whenever `periodStart > onStart`, 86400 is
added to `onStart`, so the call yields the same ratio as the call with
`onStart + 86400` (side conditions keep the unwrapped arguments inside a
single further day and inside the `unsigned long` range). -/
theorem calcPeriodRatio_midnight_wrap (c o p : ℕ) :
    (p > c → p ≤ c + 86400 → c + 86400 < U32 →
      calcPeriodRatio c o p = calcPeriodRatio (c + 86400) o p) ∧
    (p > o → p ≤ o + 86400 → o + 86400 < U32 →
      calcPeriodRatio c o p = calcPeriodRatio c (o + 86400) p) := by
  constructor
  · intro hpc hple hlt
    unfold calcPeriodRatio
    have huadd : uadd c 86400 = c + 86400 := by
      unfold uadd
      exact Nat.mod_eq_of_lt hlt
    have hnot : ¬ p > c + 86400 := by omega
    simp only [hpc, if_pos, hnot, if_neg, if_false, huadd]
  · intro hpo hple hlt
    unfold calcPeriodRatio
    have huadd : uadd o 86400 = o + 86400 := by
      unfold uadd
      exact Nat.mod_eq_of_lt hlt
    have hnot : ¬ p > o + 86400 := by omega
    simp only [hpo, if_pos, hnot, if_neg, if_false, huadd]

/-- C4 witness: the spec's concrete instance.  The call with
`periodStart = 86000`, `onStart = 86000`, `now = 100` (after wrap)
returns the same ratio as the unwrapped call with `now = 86500`, and
that common ratio is 1. -/
theorem calcPeriodRatio_midnight_wrap_witness :
    (86000 > 100 ∧ (86000 : ℕ) ≤ 100 + 86400 ∧ 100 + 86400 < U32) ∧
      calcPeriodRatio 100 86000 86000 = calcPeriodRatio 86500 86000 86000 ∧
      calcPeriodRatio 100 86000 86000 = some 1 := by
  refine ⟨⟨by decide, by decide, by decide⟩, ?_, ?_⟩
  · exact (calcPeriodRatio_midnight_wrap 100 86000 86000).1 (by decide)
      (by decide) (by decide)
  · have h1 : usub 86500 86000 = 500 := by decide
    have h2 : ¬ (86000 > 86000) := by decide
    have h3 : (86000 : ℕ) > 100 := by decide
    have h4 : uadd 100 86400 = 86500 := by decide
    simp only [calcPeriodRatio, h2, h3, if_pos, if_neg, if_false, h4, h1]
    norm_num

/-- C6 counterexample: with `onStart` and `periodStart` held fixed at
86200 and 86000, the ratio is NOT non-decreasing in `now`: at
`now = 100` the wrap adjustment fires and the ratio is 3/5, while at the
later `now = 86400` no adjustment fires and the ratio has dropped to
1/2.  The universal monotonicity claim is false. -/
theorem calcPeriodRatio_not_monotone :
    (100 : ℕ) ≤ 86400 ∧
      calcPeriodRatio 100 86200 86000 = some (3/5) ∧
      calcPeriodRatio 86400 86200 86000 = some (1/2) ∧
      ¬ ((3/5 : ℚ) ≤ 1/2) := by
  refine ⟨by decide, ?_, ?_, by norm_num⟩
  · have h1 : (86000 : ℕ) > 100 := by decide
    have h2 : ¬ ((86000 : ℕ) > 86200) := by decide
    have h3 : uadd 100 86400 = 86500 := by decide
    have h4 : usub 86500 86000 = 500 := by decide
    have h5 : usub 86500 86200 = 300 := by decide
    simp only [calcPeriodRatio, h1, h2, if_pos, if_neg, if_false, h3, h4, h5]
    norm_num
  · have h1 : ¬ ((86000 : ℕ) > 86400) := by decide
    have h2 : ¬ ((86000 : ℕ) > 86200) := by decide
    have h3 : usub 86400 86000 = 400 := by decide
    have h4 : usub 86400 86200 = 200 := by decide
    simp only [calcPeriodRatio, h1, h2, if_neg, if_false, h3, h4]
    norm_num

/-- C6 amended: the ratio is non-decreasing as only `now` increases,
provided the call stays in the unwrapped, well-founded regime:
`periodStart ≤ onStart`, `onStart ≤ now1 ≤ now2 < 2^32` and
`periodStart < now1` (so neither wrap adjustment nor unsigned underflow
fires and the denominators are positive).  Outside that regime the ratio
can decrease, as the counterexample shows. -/
theorem calcPeriodRatio_monotone_in_now (o p t1 t2 : ℕ)
    (hpo : p ≤ o) (hot : o ≤ t1) (h12 : t1 ≤ t2) (hpt : p < t1)
    (ht2 : t2 < U32) :
    ∀ r1 r2 : ℚ, calcPeriodRatio t1 o p = some r1 →
      calcPeriodRatio t2 o p = some r2 → r1 ≤ r2 := by
  intro r1 r2 h1 h2
  have ht1 : t1 < U32 := lt_of_le_of_lt h12 ht2
  have hval : ∀ t : ℕ, p < t → t < U32 → o ≤ t →
      calcPeriodRatio t o p = some (((t - o : ℕ) : ℚ) / ((t - p : ℕ) : ℚ)) := by
    intro t hpt' htU hot'
    unfold calcPeriodRatio
    have h1' : ¬ p > t := by omega
    have h2' : ¬ p > o := by omega
    have hden : usub t p = t - p := usub_of_le (le_of_lt hpt') htU
    have hnum : usub t o = t - o := usub_of_le hot' htU
    have hdz : ¬ (t - p = 0) := by omega
    simp only [h1', h2', if_neg, if_false, hden, hnum, hdz, if_neg]
  rw [hval t1 hpt ht1 hot] at h1
  rw [hval t2 (lt_of_lt_of_le hpt h12) ht2 (le_trans hot h12)] at h2
  have hr1 : r1 = ((t1 - o : ℕ) : ℚ) / ((t1 - p : ℕ) : ℚ) := by
    injection h1.symm
  have hr2 : r2 = ((t2 - o : ℕ) : ℚ) / ((t2 - p : ℕ) : ℚ) := by
    injection h2.symm
  rw [hr1, hr2]
  have c1 : ((t1 - o : ℕ) : ℚ) = (t1 : ℚ) - o := by
    push_cast [hot]
    ring
  have c2 : ((t1 - p : ℕ) : ℚ) = (t1 : ℚ) - p := by
    have : p ≤ t1 := le_of_lt hpt
    push_cast [this]
    ring
  have c3 : ((t2 - o : ℕ) : ℚ) = (t2 : ℚ) - o := by
    have : o ≤ t2 := le_trans hot h12
    push_cast [this]
    ring
  have c4 : ((t2 - p : ℕ) : ℚ) = (t2 : ℚ) - p := by
    have : p ≤ t2 := le_of_lt (lt_of_lt_of_le hpt h12)
    push_cast [this]
    ring
  rw [c1, c2, c3, c4]
  have d1 : (0 : ℚ) < (t1 : ℚ) - p := by
    have : (p : ℚ) < t1 := by exact_mod_cast hpt
    linarith
  have d2 : (0 : ℚ) < (t2 : ℚ) - p := by
    have : (p : ℚ) < t2 := by exact_mod_cast lt_of_lt_of_le hpt h12
    linarith
  rw [div_le_div_iff₀ d1 d2]
  have hpo' : (p : ℚ) ≤ o := by exact_mod_cast hpo
  have h12' : (t1 : ℚ) ≤ t2 := by exact_mod_cast h12
  nlinarith [mul_nonneg (sub_nonneg.mpr hpo') (sub_nonneg.mpr h12')]

/-- C6 amended, witness: for `periodStart = 10 ≤ onStart = 20` and
`now` increasing from 30 to 40, the ratio rises from 1/2 to 2/3. -/
theorem calcPeriodRatio_monotone_in_now_witness :
    (1/2 : ℚ) ≤ 2/3 :=
  calcPeriodRatio_monotone_in_now 20 10 30 40 (by decide) (by decide)
    (by decide) (by decide) (by decide) (1/2) (2/3)
    (by
      have h1 : ¬ ((10 : ℕ) > 30) := by decide
      have h2 : ¬ ((10 : ℕ) > 20) := by decide
      have h3 : usub 30 20 = 10 := by decide
      have h4 : usub 30 10 = 20 := by decide
      simp only [calcPeriodRatio, h1, h2, if_neg, if_false, h3, h4]
      norm_num)
    (by
      have h1 : ¬ ((10 : ℕ) > 40) := by decide
      have h2 : ¬ ((10 : ℕ) > 20) := by decide
      have h3 : usub 40 20 = 20 := by decide
      have h4 : usub 40 10 = 30 := by decide
      simp only [calcPeriodRatio, h1, h2, if_neg, if_false, h3, h4]
      norm_num)

/-- C5 counterexample: called with `count = 65` (above the cap), the
code leaves the count at 65 — it is not pulled down to
`min(count+1, 64) = 64`, and the divisor is 65, not 64.  The claimed
universal formula fails for counts above the cap. -/
theorem calcMovingAverage_above_cap_counterexample :
    (calcMovingAverage 0 1 65).2 = 65 ∧ min (65 + 1) maxN = 64 ∧
      (calcMovingAverage 0 1 65).1 = 1/65 ∧
      ((1 : ℚ)/65 ≠ (0 * ((64 : ℚ) - 1) + 1) / 64) := by
  have hlt : ¬ (65 < maxN) := by decide
  refine ⟨?_, by decide, ?_, by norm_num⟩
  · simp [calcMovingAverage, hlt]
  · simp only [calcMovingAverage, hlt, if_neg, if_false]
    norm_num

/-- C5 amended: for every average, every sample, and every prior count
of at most 64 (which is every count the program can reach),
`calcMovingAverage` returns
`(average * (newCount - 1) + sample) / newCount` with
`newCount = min (count + 1) 64`, and leaves the caller's count equal to
`newCount`.  For counts above 64 the count is left unchanged instead of
being clamped to 64. -/
theorem calcMovingAverage_formula (mA Xi : ℚ) (count : ℕ)
    (hle : count ≤ 64) :
    calcMovingAverage mA Xi count =
      ((mA * (((min (count + 1) 64 : ℕ) : ℚ) - 1) + Xi) /
          ((min (count + 1) 64 : ℕ) : ℚ),
        min (count + 1) 64) := by
  unfold calcMovingAverage maxN
  rcases lt_or_eq_of_le hle with hlt | heq
  · have hmin : min (count + 1) 64 = count + 1 := by omega
    simp only [hlt, if_pos, hmin]
  · subst heq
    norm_num

/-- C5 amended, witness: at full cap (count 64, so `newCount = 64`) the
fold of sample 1/4 into average 1/2 gives (1/2·63 + 1/4)/64 = 127/256
and the count stays 64. -/
theorem calcMovingAverage_formula_witness :
    calcMovingAverage (1/2) (1/4) 64 =
      (((1/2 : ℚ) * (((min (64 + 1) 64 : ℕ) : ℚ) - 1) + 1/4) /
          ((min (64 + 1) 64 : ℕ) : ℚ),
        min (64 + 1) 64) :=
  calcMovingAverage_formula (1/2) (1/4) 64 (by decide)

/-- C10: for every call of `calcMovingAverage` with a prior count in
[0, 64], the updated count lies in [1, 64], never decreases, and is the
(necessarily nonzero) denominator of the division that produces the
returned average. -/
theorem calcMovingAverage_count_safe (mA Xi : ℚ) (count : ℕ)
    (hle : count ≤ 64) :
    1 ≤ (calcMovingAverage mA Xi count).2 ∧
      (calcMovingAverage mA Xi count).2 ≤ 64 ∧
      count ≤ (calcMovingAverage mA Xi count).2 ∧
      (((calcMovingAverage mA Xi count).2 : ℚ) ≠ 0) ∧
      (calcMovingAverage mA Xi count).1 =
        (mA * (((calcMovingAverage mA Xi count).2 : ℚ) - 1) + Xi) /
          ((calcMovingAverage mA Xi count).2 : ℚ) := by
  by_cases hlt : count < 64
  · have e : calcMovingAverage mA Xi count =
        ((mA * (((count + 1 : ℕ) : ℚ) - 1) + Xi) / ((count + 1 : ℕ) : ℚ),
          count + 1) := by
      simp [calcMovingAverage, maxN, hlt]
    rw [e]
    refine ⟨by omega, by omega, by omega, ?_, rfl⟩
    have hpos : (0 : ℚ) < ((count + 1 : ℕ) : ℚ) := by positivity
    exact ne_of_gt hpos
  · have h64 : count = 64 := by omega
    subst h64
    have e : calcMovingAverage mA Xi 64 =
        ((mA * (((64 : ℕ) : ℚ) - 1) + Xi) / ((64 : ℕ) : ℚ), 64) := by
      simp [calcMovingAverage, maxN]
    rw [e]
    refine ⟨by omega, by omega, by omega, by norm_num, rfl⟩

/-- C10 witness: a fresh estimator (count 0) folds its first sample with
denominator 1 and the count rises to 1, within [1, 64]. -/
theorem calcMovingAverage_count_safe_witness :
    1 ≤ (calcMovingAverage 0 (1/3) 0).2 ∧
      (calcMovingAverage 0 (1/3) 0).2 ≤ 64 ∧
      0 ≤ (calcMovingAverage 0 (1/3) 0).2 ∧
      (((calcMovingAverage 0 (1/3) 0).2 : ℚ) ≠ 0) ∧
      (calcMovingAverage 0 (1/3) 0).1 =
        (0 * (((calcMovingAverage 0 (1/3) 0).2 : ℚ) - 1) + 1/3) /
          ((calcMovingAverage 0 (1/3) 0).2 : ℚ) :=
  calcMovingAverage_count_safe 0 (1/3) 0 (by decide)

/-! ## The fan run state machine (the `loop` function, lines 325-632)

Only the control core is embedded: the sensor-assimilation block
(lines 394-397, 421-468) and the run-state `switch` (lines 470-540).
Display, logging and temperature I/O do not touch the control state.
The relay actuations (`digitalWrite(relayControlPin, ...)`) performed in
a cycle are collected in order in a list: `true` is pin LOW = fan
energized, `false` is pin HIGH = fan off. -/

/-- The four run states (`#define` constants, lines 161-164). -/
inductive RunState
  | notRunning
  | Running
  | RunningAdjusting
  | notRunningAdjusting
deriving DecidableEq, Repr

/-- External values read in one control cycle: the four digital sensor
inputs (true = HIGH = open / calling), the clock, and the two
user-settable targets. -/
structure CycleInput where
  bedroomIn : Bool
  officeIn : Bool
  kitchenIn : Bool
  furnaceIn : Bool
  now : ℕ
  desiredRatio : ℚ
  adjustmentEnabled : Bool
deriving DecidableEq, Repr

/-- The free-standing mutable controller state of the sketch. -/
structure CState where
  runState : RunState
  SSbedroom : Bool
  SSoffice : Bool
  SSkitchen : Bool
  SSfurnace : Bool
  SSrunning : Bool
  doorComplete : ℕ
  actualRatio : ℚ
  movingAverage : ℚ
  averageCount : ℕ
  onPeriodStart : ℕ
  totPeriodStart : ℕ
  relayOn : Bool
deriving DecidableEq, Repr

/-- The kitchen (sliding-door) sensor block (lines 442-457): on every
raw edge the one-shot deadline `doorComplete = now + doorDelay` is
re-armed, and `SSkitchen` always tracks the raw reading.  State is the
pair (SSkitchen, doorComplete). -/
def doorSensorUpdate (kitchenIn : Bool) (now : ℕ) (s : Bool × ℕ) : Bool × ℕ :=
  if kitchenIn = false then
    (false, if s.1 = true then now + doorDelay else s.2)
  else
    (true, if s.1 = false then now + doorDelay else s.2)

theorem doorSensorUpdate_fst (kitchenIn : Bool) (now : ℕ) (s : Bool × ℕ) :
    (doorSensorUpdate kitchenIn now s).1 = kitchenIn := by
  cases kitchenIn <;> simp [doorSensorUpdate]

theorem doorSensorUpdate_self (raw : Bool) (now dc : ℕ) :
    doorSensorUpdate raw now (raw, dc) = (raw, dc) := by
  cases raw <;> simp [doorSensorUpdate]

/-- The off-request condition exactly as the C expression parses
(lines 489-490 and 530-531):

    SSbedroom || SSoffice || SSfurnace || SSkitchen && (currentTime > doorComplete)

C gives `&&` higher precedence than `||`, so the door-delay comparison
conjoins with the kitchen-door sensor alone. -/
def offCondition (bed office furn kit : Bool) (now doorComplete : ℕ) : Bool :=
  bed || office || furn || (kit && decide (now > doorComplete))

/-- The off-request condition as the specification's sentence reads it:
the delay gate conjoining with the entire four-way disjunction.  Written
from the spec's words, for comparison with `offCondition` above. -/
def offConditionSpec (bed office furn kit : Bool) (now doorComplete : ℕ) : Bool :=
  (bed || office || furn || kit) && decide (now > doorComplete)

/-- Sensor assimilation performed before the run-state switch: the
startup re-initialisations of the period starts (lines 394-397 and 468)
and the four digital reads (lines 421-467). -/
def assimilate (inp : CycleInput) (s : CState) : CState :=
  let s1 := if s.onPeriodStart = 0 ∧ s.runState = RunState.Running
            then { s with onPeriodStart := inp.now } else s
  let d := doorSensorUpdate inp.kitchenIn inp.now (s1.SSkitchen, s1.doorComplete)
  let s2 := { s1 with
                SSbedroom := inp.bedroomIn
                SSoffice := inp.officeIn
                SSkitchen := d.1
                SSfurnace := inp.furnaceIn
                doorComplete := d.2 }
  if s2.totPeriodStart = 0 then { s2 with totPeriodStart := inp.now } else s2

theorem assimilate_eq (inp : CycleInput) (s : CState) :
    assimilate inp s =
      { s with
          SSbedroom := inp.bedroomIn
          SSoffice := inp.officeIn
          SSkitchen := inp.kitchenIn
          SSfurnace := inp.furnaceIn
          doorComplete :=
            (doorSensorUpdate inp.kitchenIn inp.now (s.SSkitchen, s.doorComplete)).2
          onPeriodStart :=
            if s.onPeriodStart = 0 ∧ s.runState = RunState.Running then inp.now
            else s.onPeriodStart
          totPeriodStart :=
            if s.totPeriodStart = 0 then inp.now else s.totPeriodStart } := by
  obtain ⟨rs, b, o, k, f, r, dc, ar, ma, ac, ops, tps, rel⟩ := s
  simp only [assimilate, doorSensorUpdate_fst]
  split_ifs <;> simp_all

/-- The ratio freshly computed inside the loop (lines 472 and 515).  On
a zero denominator the C float division produces an IEEE non-finite
value; the model takes 0 there (see the header note) — all theorems
touching this corner pin the denominator away from zero. -/
def ratioNow (inp : CycleInput) (s : CState) : ℚ :=
  match calcPeriodRatio inp.now s.onPeriodStart s.totPeriodStart with
  | some q => q
  | none => 0

/-- The common off-transition bookkeeping (lines 496-498, 517-519,
532-534): fold `actualRatio` into the moving average, reset the ratio,
restart the total period. -/
def foldOff (inp : CycleInput) (s : CState) : CState :=
  let mc := calcMovingAverage s.movingAverage s.actualRatio s.averageCount
  { s with
      movingAverage := mc.1
      averageCount := mc.2
      actualRatio := 0
      totPeriodStart := inp.now }

/-- `case Running` (lines 471-503).  Note the fall-through: the
ratio-exceeded test (lines 486-488, target `notRunningAdjusting`) runs
first, and the off-request test runs afterwards in the same cycle and
can overwrite the decision. -/
def stepRunning (inp : CycleInput) (s : CState) : CState × List Bool :=
  let r := ratioNow inp s
  let s1 := { s with actualRatio := r }
  let s2 := if inp.adjustmentEnabled = true ∧ r > inp.desiredRatio
            then { s1 with runState := RunState.notRunningAdjusting } else s1
  if offCondition s2.SSbedroom s2.SSoffice s2.SSfurnace s2.SSkitchen
      inp.now s2.doorComplete = true then
    if inp.adjustmentEnabled = true ∧ r < inp.desiredRatio then
      ({ s2 with runState := RunState.RunningAdjusting }, [])
    else
      ({ foldOff inp s2 with
           runState := RunState.notRunning
           SSrunning := false
           relayOn := false }, [false])
  else (s2, [])

/-- `case notRunning` (lines 504-513). -/
def stepNotRunning (inp : CycleInput) (s : CState) : CState × List Bool :=
  if (!s.SSbedroom && !s.SSoffice && !s.SSfurnace &&
      (!s.SSkitchen && decide (inp.now > s.doorComplete))) = true then
    ({ s with
         runState := RunState.Running
         SSrunning := true
         onPeriodStart := inp.now
         relayOn := true }, [true])
  else (s, [])

/-- `case RunningAdjusting` (lines 514-525). -/
def stepRunningAdjusting (inp : CycleInput) (s : CState) : CState × List Bool :=
  let r := ratioNow inp s
  let s1 := { s with actualRatio := r }
  if r > inp.desiredRatio ∨ inp.adjustmentEnabled = false then
    ({ foldOff inp s1 with
         runState := RunState.notRunning
         SSrunning := false
         relayOn := false }, [false])
  else (s1, [])

/-- `case notRunningAdjusting` (lines 526-537): the relay is driven OFF
unconditionally every cycle spent in this state. -/
def stepNotRunningAdjusting (inp : CycleInput) (s : CState) : CState × List Bool :=
  let s1 := { s with SSrunning := false, relayOn := false }
  if offCondition s1.SSbedroom s1.SSoffice s1.SSfurnace s1.SSkitchen
      inp.now s1.doorComplete = true then
    ({ foldOff inp s1 with runState := RunState.notRunning }, [false])
  else (s1, [false])

/-- The run-state `switch` (lines 470-540). -/
def dispatch (inp : CycleInput) (s : CState) : CState × List Bool :=
  match s.runState with
  | RunState.Running => stepRunning inp s
  | RunState.notRunning => stepNotRunning inp s
  | RunState.RunningAdjusting => stepRunningAdjusting inp s
  | RunState.notRunningAdjusting => stepNotRunningAdjusting inp s

/-- One full control cycle: assimilation then the switch.  Returns the
next controller state and the relay actuations made during the cycle. -/
def step (inp : CycleInput) (s : CState) : CState × List Bool :=
  dispatch inp (assimilate inp s)

theorem dispatch_running (inp : CycleInput) (s : CState)
    (h : s.runState = RunState.Running) :
    dispatch inp s = stepRunning inp s := by
  unfold dispatch
  rw [h]

theorem dispatch_notRunning (inp : CycleInput) (s : CState)
    (h : s.runState = RunState.notRunning) :
    dispatch inp s = stepNotRunning inp s := by
  unfold dispatch
  rw [h]

theorem dispatch_runningAdjusting (inp : CycleInput) (s : CState)
    (h : s.runState = RunState.RunningAdjusting) :
    dispatch inp s = stepRunningAdjusting inp s := by
  unfold dispatch
  rw [h]

theorem dispatch_notRunningAdjusting (inp : CycleInput) (s : CState)
    (h : s.runState = RunState.notRunningAdjusting) :
    dispatch inp s = stepNotRunningAdjusting inp s := by
  unfold dispatch
  rw [h]

/-! ### Basic facts about the assimilation phase -/

theorem assimilate_runState (inp : CycleInput) (s : CState) :
    (assimilate inp s).runState = s.runState := by
  rw [assimilate_eq]

theorem assimilate_SSbedroom (inp : CycleInput) (s : CState) :
    (assimilate inp s).SSbedroom = inp.bedroomIn := by
  rw [assimilate_eq]

theorem assimilate_SSoffice (inp : CycleInput) (s : CState) :
    (assimilate inp s).SSoffice = inp.officeIn := by
  rw [assimilate_eq]

theorem assimilate_SSkitchen (inp : CycleInput) (s : CState) :
    (assimilate inp s).SSkitchen = inp.kitchenIn := by
  rw [assimilate_eq]

theorem assimilate_SSfurnace (inp : CycleInput) (s : CState) :
    (assimilate inp s).SSfurnace = inp.furnaceIn := by
  rw [assimilate_eq]

theorem assimilate_SSrunning (inp : CycleInput) (s : CState) :
    (assimilate inp s).SSrunning = s.SSrunning := by
  rw [assimilate_eq]

theorem assimilate_relayOn (inp : CycleInput) (s : CState) :
    (assimilate inp s).relayOn = s.relayOn := by
  rw [assimilate_eq]

theorem assimilate_actualRatio (inp : CycleInput) (s : CState) :
    (assimilate inp s).actualRatio = s.actualRatio := by
  rw [assimilate_eq]

theorem assimilate_doorComplete (inp : CycleInput) (s : CState) :
    (assimilate inp s).doorComplete =
      (doorSensorUpdate inp.kitchenIn inp.now (s.SSkitchen, s.doorComplete)).2 := by
  rw [assimilate_eq]

theorem assimilate_onPeriodStart (inp : CycleInput) (s : CState)
    (h : s.onPeriodStart ≠ 0) :
    (assimilate inp s).onPeriodStart = s.onPeriodStart := by
  rw [assimilate_eq]
  simp [h]

theorem assimilate_totPeriodStart (inp : CycleInput) (s : CState)
    (h : s.totPeriodStart ≠ 0) :
    (assimilate inp s).totPeriodStart = s.totPeriodStart := by
  rw [assimilate_eq]
  simp [h]

theorem assimilate_onPeriodStart_zero (inp : CycleInput) (s : CState)
    (h : (assimilate inp s).onPeriodStart = 0)
    (hrs : s.runState = RunState.Running) : inp.now = 0 := by
  rw [assimilate_eq] at h
  simp only [hrs, and_true] at h
  split_ifs at h with hc
  · exact h
  · exact absurd h hc

theorem assimilate_totPeriodStart_zero (inp : CycleInput) (s : CState)
    (h : (assimilate inp s).totPeriodStart = 0) : inp.now = 0 := by
  rw [assimilate_eq] at h
  simp only at h
  split_ifs at h with hc
  · exact h
  · exact absurd h hc

/-- A state already agreeing with the cycle inputs (and with the
startup re-initialisations already applied) is a fixed point of the
assimilation phase. -/
theorem assimilate_fix (inp : CycleInput) (p : CState)
    (hb : p.SSbedroom = inp.bedroomIn) (ho : p.SSoffice = inp.officeIn)
    (hf : p.SSfurnace = inp.furnaceIn) (hk : p.SSkitchen = inp.kitchenIn)
    (hop : p.onPeriodStart = 0 → p.runState = RunState.Running → inp.now = 0)
    (htp : p.totPeriodStart = 0 → inp.now = 0) :
    assimilate inp p = p := by
  rw [assimilate_eq]
  obtain ⟨rs, b, o, k, f, r, dc, ar, ma, ac, ops, tps, rel⟩ := p
  simp only at hb ho hf hk hop htp
  subst hb ho hf hk
  rw [doorSensorUpdate_self]
  simp only [CState.mk.injEq, and_true, true_and]
  constructor
  · split_ifs with h
    · exact (hop h.1 h.2).trans h.1.symm
    · rfl
  · split_ifs with h
    · exact (htp h).trans h.symm
    · rfl

theorem ratioNow_congr (inp : CycleInput) (s1 s2 : CState)
    (h1 : s1.onPeriodStart = s2.onPeriodStart)
    (h2 : s1.totPeriodStart = s2.totPeriodStart) :
    ratioNow inp s1 = ratioNow inp s2 := by
  unfold ratioNow
  rw [h1, h2]

theorem update_actualRatio_self (s : CState) (r : ℚ) (h : s.actualRatio = r) :
    { s with actualRatio := r } = s := by
  obtain ⟨rs, b, o, k, f, sr, dc, ar, ma, ac, ops, tps, rel⟩ := s
  simp_all

theorem update_off_self (s : CState)
    (h1 : s.SSrunning = false) (h2 : s.relayOn = false) :
    { s with SSrunning := false, relayOn := false } = s := by
  obtain ⟨rs, b, o, k, f, sr, dc, ar, ma, ac, ops, tps, rel⟩ := s
  simp_all

/-! ### C9: a short door blip is never seen by the state machine -/

/-- Door-path observations along a trace of cycles.  Each cycle carries
the clock value and the raw sliding-door reading; the door block
(lines 442-457) runs first, then the off-condition's door contribution
(with the bedroom, office and furnace sensors clear) is recorded. -/
def doorTriggers (s : Bool × ℕ) : List (ℕ × Bool) → List Bool
  | [] => []
  | (now, raw) :: rest =>
      let s1 := doorSensorUpdate raw now s
      offCondition false false false s1.1 now s1.2 :: doorTriggers s1 rest

theorem doorTriggers_invariant (tOpen : ℕ) (trace : List (ℕ × Bool))
    (s : Bool × ℕ)
    (hinv : s.1 = true → tOpen + doorDelay ≤ s.2)
    (htrace : ∀ p ∈ trace, p.2 = true → tOpen ≤ p.1 ∧ p.1 ≤ tOpen + 60) :
    doorTriggers s trace = List.replicate trace.length false := by
  induction trace generalizing s with
  | nil => rfl
  | cons hd tl ih =>
      obtain ⟨now, raw⟩ := hd
      have hhd := htrace (now, raw) (List.mem_cons_self _ _)
      have htl : ∀ p ∈ tl, p.2 = true → tOpen ≤ p.1 ∧ p.1 ≤ tOpen + 60 :=
        fun p hp => htrace p (List.mem_cons_of_mem _ hp)
      cases raw with
      | false =>
          have hupd : doorSensorUpdate false now s =
              (false, if s.1 = true then now + doorDelay else s.2) := by
            simp [doorSensorUpdate]
          simp only [doorTriggers, hupd, List.length_cons, List.replicate_succ,
            List.cons.injEq]
          refine ⟨by simp [offCondition], ?_⟩
          exact ih _ (by simp) htl
      | true =>
          have hbound := hhd rfl
          have hupd : doorSensorUpdate true now s =
              (true, if s.1 = false then now + doorDelay else s.2) := by
            simp [doorSensorUpdate]
          have harm : tOpen + doorDelay ≤
              (if s.1 = false then now + doorDelay else s.2) := by
            split_ifs with hcl
            · unfold doorDelay
              omega
            · exact hinv (by revert hcl; cases s.1 <;> simp)
          simp only [doorTriggers, hupd, List.length_cons, List.replicate_succ,
            List.cons.injEq]
          constructor
          · have h60 := hbound.2
            have hnow : ¬ (now > if s.1 = false then now + doorDelay else s.2) := by
              simp only [doorDelay] at harm ⊢
              omega
            simp [offCondition, hnow]
          · exact ih _ (fun _ => harm) htl

/-- C9: if the raw sliding-door input opens and closes again within 60
seconds (all cycles that see the door open lie within
[tOpen, tOpen + 60]) while `doorDelay = 120`, and the settled door state
starts closed, then in no cycle — during or after the blip — does the
door input satisfy the off-condition: the state machine never observes a
door-open event from the door input alone. -/
theorem door_blip_never_triggers (trace : List (ℕ × Bool)) (tOpen : ℕ)
    (s : Bool × ℕ) (hclosed : s.1 = false)
    (htrace : ∀ p ∈ trace, p.2 = true → tOpen ≤ p.1 ∧ p.1 ≤ tOpen + 60) :
    doorTriggers s trace = List.replicate trace.length false :=
  doorTriggers_invariant tOpen trace s (fun h => absurd h (by simp [hclosed]))
    htrace

/-- C9 witness: a door blip open during [5, 64] with cycles at 5, 40,
64 and 1000 never produces a door off-request. -/
theorem door_blip_never_triggers_witness :
    doorTriggers (false, 0) [(5, true), (40, true), (64, false), (1000, false)] =
      List.replicate 4 false :=
  door_blip_never_triggers
    [(5, true), (40, true), (64, false), (1000, false)] 5 (false, 0) rfl
    (by decide)

/-! ### C2: how the off-condition actually gates the off path -/

/-- C2 counterexample: in state `Running` with only the bedroom sensor
asserted and the door delay NOT yet elapsed (`now = 150 ≤ doorComplete =
1000`), the cycle still takes the off path (transitions to
`notRunning`): C operator precedence parses the condition as
`bed || office || furn || (kit && delay)`, so the delay gate does not
conjoin with the whole disjunction and a single sensor forces the off
path with the delay pending, contradicting the claim (the spec-worded
`offConditionSpec` is false here while the code's off path is taken). -/
theorem offCondition_precedence_counterexample :
    ((150 : ℕ) ≤ 1000) ∧
    offConditionSpec true false false false 150 1000 = false ∧
    offCondition true false false false 150 1000 = true ∧
    (step ⟨true, false, false, false, 150, 1/4, false⟩
        ⟨RunState.Running, false, false, false, false, true, 1000,
          0, 0, 0, 100, 50, true⟩).1.runState = RunState.notRunning := by
  refine ⟨by decide, by decide, by decide, ?_⟩
  have hcalc : calcPeriodRatio 150 100 50 = some (1/2) := by
    have h1 : ¬ ((50 : ℕ) > 150) := by decide
    have h2 : ¬ ((50 : ℕ) > 100) := by decide
    have h3 : usub 150 100 = 50 := by decide
    have h4 : usub 150 50 = 100 := by decide
    simp only [calcPeriodRatio, h1, h2, if_neg, if_false, h3, h4]
    norm_num
  have hassim : assimilate ⟨true, false, false, false, 150, 1/4, false⟩
      ⟨RunState.Running, false, false, false, false, true, 1000,
        0, 0, 0, 100, 50, true⟩ =
      ⟨RunState.Running, true, false, false, false, true, 1000,
        0, 0, 0, 100, 50, true⟩ := by
    rw [assimilate_eq]
    norm_num [doorSensorUpdate]
  unfold step
  rw [hassim, dispatch_running _ _ rfl]
  simp only [stepRunning, ratioNow, hcalc]
  norm_num [offCondition, foldOff]

/-- C2 amended: in states `Running` and `notRunningAdjusting` the off
path is taken exactly when the literal C condition
`bed || office || furn || (kit && now > doorComplete)` holds — the
delay gates only the kitchen-door sensor.  The off path shows as a
transition to `RunningAdjusting` or `notRunning` from `Running`, and to
`notRunning` from `notRunningAdjusting`. -/
theorem off_path_iff_offCondition (inp : CycleInput) (s : CState) :
    (s.runState = RunState.Running →
      (((step inp s).1.runState = RunState.RunningAdjusting ∨
          (step inp s).1.runState = RunState.notRunning) ↔
        offCondition inp.bedroomIn inp.officeIn inp.furnaceIn inp.kitchenIn
          inp.now
          (doorSensorUpdate inp.kitchenIn inp.now
            (s.SSkitchen, s.doorComplete)).2 = true)) ∧
    (s.runState = RunState.notRunningAdjusting →
      ((step inp s).1.runState = RunState.notRunning ↔
        offCondition inp.bedroomIn inp.officeIn inp.furnaceIn inp.kitchenIn
          inp.now
          (doorSensorUpdate inp.kitchenIn inp.now
            (s.SSkitchen, s.doorComplete)).2 = true)) := by
  have hb := assimilate_SSbedroom inp s
  have ho := assimilate_SSoffice inp s
  have hk := assimilate_SSkitchen inp s
  have hf := assimilate_SSfurnace inp s
  have hdc := assimilate_doorComplete inp s
  constructor
  · intro hrs
    have hrs' : (assimilate inp s).runState = RunState.Running := by
      rw [assimilate_runState, hrs]
    unfold step
    rw [dispatch_running _ _ hrs']
    simp only [stepRunning]
    by_cases hc1 : inp.adjustmentEnabled = true ∧
        ratioNow inp (assimilate inp s) > inp.desiredRatio
    · rw [if_pos hc1]
      simp only [hb, ho, hk, hf, hdc]
      by_cases hc2 : offCondition inp.bedroomIn inp.officeIn inp.furnaceIn
          inp.kitchenIn inp.now
          (doorSensorUpdate inp.kitchenIn inp.now
            (s.SSkitchen, s.doorComplete)).2 = true
      · rw [if_pos hc2]
        split_ifs <;> simp [hc2]
      · rw [if_neg hc2]
        simp [hc2]
    · rw [if_neg hc1]
      simp only [hb, ho, hk, hf, hdc]
      by_cases hc2 : offCondition inp.bedroomIn inp.officeIn inp.furnaceIn
          inp.kitchenIn inp.now
          (doorSensorUpdate inp.kitchenIn inp.now
            (s.SSkitchen, s.doorComplete)).2 = true
      · rw [if_pos hc2]
        split_ifs <;> simp [hc2]
      · rw [if_neg hc2]
        simp [hc2, hrs']
  · intro hrs
    have hrs' : (assimilate inp s).runState = RunState.notRunningAdjusting := by
      rw [assimilate_runState, hrs]
    unfold step
    rw [dispatch_notRunningAdjusting _ _ hrs']
    simp only [stepNotRunningAdjusting]
    simp only [hb, ho, hk, hf, hdc]
    by_cases hc2 : offCondition inp.bedroomIn inp.officeIn inp.furnaceIn
        inp.kitchenIn inp.now
        (doorSensorUpdate inp.kitchenIn inp.now
          (s.SSkitchen, s.doorComplete)).2 = true
    · rw [if_pos hc2]
      simp [hc2]
    · rw [if_neg hc2]
      simp [hc2, hrs']

/-- C2 amended, witness: with only the bedroom sensor asserted and the
delay pending, the `Running` cycle takes the off path. -/
theorem off_path_iff_offCondition_witness :
    (step ⟨true, false, false, false, 150, 1/4, false⟩
        ⟨RunState.Running, false, false, false, false, true, 1000,
          0, 0, 0, 100, 50, true⟩).1.runState = RunState.RunningAdjusting ∨
    (step ⟨true, false, false, false, 150, 1/4, false⟩
        ⟨RunState.Running, false, false, false, false, true, 1000,
          0, 0, 0, 100, 50, true⟩).1.runState = RunState.notRunning :=
  ((off_path_iff_offCondition
      ⟨true, false, false, false, 150, 1/4, false⟩
      ⟨RunState.Running, false, false, false, false, true, 1000,
        0, 0, 0, 100, 50, true⟩).1 rfl).mpr (by decide)

/-! ### C7: relay actuations per cycle -/

/-- C7 counterexample: a quiescent `Running` cycle (no sensor asserted,
adjustment disabled) keeps the state `Running` and makes NO relay call
at all — the claimed one-call-per-cycle guarantee fails. -/
theorem relay_not_called_every_cycle :
    (step ⟨false, false, false, false, 150, 1/4, false⟩
        ⟨RunState.Running, false, false, false, false, true, 1000,
          0, 0, 0, 100, 50, true⟩).1.runState = RunState.Running ∧
    (step ⟨false, false, false, false, 150, 1/4, false⟩
        ⟨RunState.Running, false, false, false, false, true, 1000,
          0, 0, 0, 100, 50, true⟩).2 = [] := by
  have hcalc : calcPeriodRatio 150 100 50 = some (1/2) := by
    have h1 : ¬ ((50 : ℕ) > 150) := by decide
    have h2 : ¬ ((50 : ℕ) > 100) := by decide
    have h3 : usub 150 100 = 50 := by decide
    have h4 : usub 150 50 = 100 := by decide
    simp only [calcPeriodRatio, h1, h2, if_neg, if_false, h3, h4]
    norm_num
  have hassim : assimilate ⟨false, false, false, false, 150, 1/4, false⟩
      ⟨RunState.Running, false, false, false, false, true, 1000,
        0, 0, 0, 100, 50, true⟩ =
      ⟨RunState.Running, false, false, false, false, true, 1000,
        0, 0, 0, 100, 50, true⟩ := by
    rw [assimilate_eq]
    norm_num [doorSensorUpdate]
  constructor <;>
    (unfold step
     rw [hassim, dispatch_running _ _ rfl]
     simp only [stepRunning, ratioNow, hcalc]
     norm_num [offCondition, foldOff])

/-- C7 amended: each control cycle makes at most one relay call, not
exactly one: a cycle spent in `notRunningAdjusting` always calls (OFF),
a transition into `Running` or into `notRunning` calls once with the
new value, and every other cycle — in particular every cycle whose run
state does not change, outside `notRunningAdjusting` — makes no relay
call at all. -/
theorem relay_calls_at_most_one (inp : CycleInput) (s : CState) :
    (step inp s).2.length ≤ 1 ∧
      ((step inp s).1.runState = s.runState ∧
          s.runState ≠ RunState.notRunningAdjusting →
        (step inp s).2 = []) := by
  have hA := assimilate_runState inp s
  unfold step
  cases hrs : (assimilate inp s).runState with
  | Running =>
      have hsrs : s.runState = RunState.Running := by rw [← hA, hrs]
      rw [dispatch_running _ _ hrs]
      simp only [stepRunning]
      split_ifs <;>
        refine ⟨by simp, fun h => ?_⟩ <;>
        first
          | rfl
          | (exfalso; rw [hsrs] at h; simp at h)
  | notRunning =>
      have hsrs : s.runState = RunState.notRunning := by rw [← hA, hrs]
      rw [dispatch_notRunning _ _ hrs]
      simp only [stepNotRunning]
      split_ifs <;>
        refine ⟨by simp, fun h => ?_⟩ <;>
        first
          | rfl
          | (exfalso; rw [hsrs] at h; simp at h)
  | RunningAdjusting =>
      have hsrs : s.runState = RunState.RunningAdjusting := by rw [← hA, hrs]
      rw [dispatch_runningAdjusting _ _ hrs]
      simp only [stepRunningAdjusting]
      split_ifs <;>
        refine ⟨by simp, fun h => ?_⟩ <;>
        first
          | rfl
          | (exfalso; rw [hsrs] at h; simp at h)
  | notRunningAdjusting =>
      have hsrs : s.runState = RunState.notRunningAdjusting := by rw [← hA, hrs]
      rw [dispatch_notRunningAdjusting _ _ hrs]
      simp only [stepNotRunningAdjusting]
      split_ifs <;>
        refine ⟨by simp, fun h => ?_⟩ <;>
        (exfalso; rw [hsrs] at h; simp at h)

/-- C7 amended, witness: the quiescent `Running` cycle makes no relay
call (its state is unchanged and it is not in `notRunningAdjusting`). -/
theorem relay_calls_at_most_one_witness :
    (step ⟨false, false, false, false, 150, 1/4, false⟩
        ⟨RunState.Running, false, false, false, false, true, 1000,
          0, 0, 0, 100, 50, true⟩).2 = [] :=
  (relay_calls_at_most_one ⟨false, false, false, false, 150, 1/4, false⟩
      ⟨RunState.Running, false, false, false, false, true, 1000,
        0, 0, 0, 100, 50, true⟩).2 ⟨by decide, by decide⟩

/-! ### C1: the ratio-exceeded transition out of Running -/

/-- C1 counterexample: in `Running` with adjustment enabled, fresh ratio
1/2 strictly above the target 1/4, and the off-condition false, the
machine does NOT transition to `RunningAdjusting` — it transitions to
`notRunningAdjusting` (line 487 of the sketch). -/
theorem running_adjust_target_counterexample :
    calcPeriodRatio 150 100 50 = some (1/2) ∧ ((1/2 : ℚ) > 1/4) ∧
    offCondition false false false false 150 1000 = false ∧
    (step ⟨false, false, false, false, 150, 1/4, true⟩
        ⟨RunState.Running, false, false, false, false, true, 1000,
          0, 0, 0, 100, 50, true⟩).1.runState ≠ RunState.RunningAdjusting ∧
    (step ⟨false, false, false, false, 150, 1/4, true⟩
        ⟨RunState.Running, false, false, false, false, true, 1000,
          0, 0, 0, 100, 50, true⟩).1.runState
      = RunState.notRunningAdjusting := by
  have hcalc : calcPeriodRatio 150 100 50 = some (1/2) := by
    have h1 : ¬ ((50 : ℕ) > 150) := by decide
    have h2 : ¬ ((50 : ℕ) > 100) := by decide
    have h3 : usub 150 100 = 50 := by decide
    have h4 : usub 150 50 = 100 := by decide
    simp only [calcPeriodRatio, h1, h2, if_neg, if_false, h3, h4]
    norm_num
  have hassim : assimilate ⟨false, false, false, false, 150, 1/4, true⟩
      ⟨RunState.Running, false, false, false, false, true, 1000,
        0, 0, 0, 100, 50, true⟩ =
      ⟨RunState.Running, false, false, false, false, true, 1000,
        0, 0, 0, 100, 50, true⟩ := by
    rw [assimilate_eq]
    norm_num [doorSensorUpdate]
  have heq : (step ⟨false, false, false, false, 150, 1/4, true⟩
      ⟨RunState.Running, false, false, false, false, true, 1000,
        0, 0, 0, 100, 50, true⟩).1.runState
      = RunState.notRunningAdjusting := by
    unfold step
    rw [hassim, dispatch_running _ _ rfl]
    simp only [stepRunning, ratioNow, hcalc]
    norm_num [offCondition, foldOff]
  refine ⟨hcalc, by norm_num, by decide, ?_, heq⟩
  rw [heq]
  decide

/-- C1 amended: in state `Running`, when adjustment is enabled, the
freshly computed ratio is defined and strictly greater than the desired
ratio, and the off-condition (as the code parses it) does not hold —
so the off path cannot take precedence — the machine transitions to
`notRunningAdjusting` (not `RunningAdjusting`), and the relay is not
actuated in that cycle: no relay call is made and the relay state is
unchanged (still ON if it was ON). -/
theorem running_adjust_enters_notRunningAdjusting (inp : CycleInput)
    (s : CState) (r : ℚ)
    (hrs : s.runState = RunState.Running)
    (hon : s.onPeriodStart ≠ 0) (htot : s.totPeriodStart ≠ 0)
    (hadj : inp.adjustmentEnabled = true)
    (hr : calcPeriodRatio inp.now s.onPeriodStart s.totPeriodStart = some r)
    (hgt : r > inp.desiredRatio)
    (hoff : offCondition inp.bedroomIn inp.officeIn inp.furnaceIn inp.kitchenIn
        inp.now
        (doorSensorUpdate inp.kitchenIn inp.now
          (s.SSkitchen, s.doorComplete)).2 = false) :
    (step inp s).1.runState = RunState.notRunningAdjusting ∧
      (step inp s).2 = [] ∧ (step inp s).1.relayOn = s.relayOn := by
  have hrs' : (assimilate inp s).runState = RunState.Running := by
    rw [assimilate_runState, hrs]
  have honp := assimilate_onPeriodStart inp s hon
  have htotp := assimilate_totPeriodStart inp s htot
  have hb := assimilate_SSbedroom inp s
  have ho := assimilate_SSoffice inp s
  have hk := assimilate_SSkitchen inp s
  have hf := assimilate_SSfurnace inp s
  have hdc := assimilate_doorComplete inp s
  have hrel := assimilate_relayOn inp s
  have hrn : ratioNow inp (assimilate inp s) = r := by
    unfold ratioNow
    rw [honp, htotp, hr]
  have hcnd : inp.adjustmentEnabled = true ∧ r > inp.desiredRatio := ⟨hadj, hgt⟩
  unfold step
  rw [dispatch_running _ _ hrs']
  simp only [stepRunning, hrn]
  rw [if_pos hcnd]
  simp only [hb, ho, hk, hf, hdc]
  rw [if_neg (by simp [hoff])]
  exact ⟨rfl, rfl, hrel⟩

/-- C1 amended, witness: the concrete instance of the counterexample
state, via the amended theorem. -/
theorem running_adjust_enters_notRunningAdjusting_witness :
    (step ⟨false, false, false, false, 150, 1/4, true⟩
        ⟨RunState.Running, false, false, false, false, true, 1000,
          0, 0, 0, 100, 50, true⟩).1.runState = RunState.notRunningAdjusting ∧
      (step ⟨false, false, false, false, 150, 1/4, true⟩
          ⟨RunState.Running, false, false, false, false, true, 1000,
            0, 0, 0, 100, 50, true⟩).2 = [] ∧
      (step ⟨false, false, false, false, 150, 1/4, true⟩
          ⟨RunState.Running, false, false, false, false, true, 1000,
            0, 0, 0, 100, 50, true⟩).1.relayOn =
        (⟨RunState.Running, false, false, false, false, true, 1000,
            0, 0, 0, 100, 50, true⟩ : CState).relayOn :=
  running_adjust_enters_notRunningAdjusting
    ⟨false, false, false, false, 150, 1/4, true⟩
    ⟨RunState.Running, false, false, false, false, true, 1000,
      0, 0, 0, 100, 50, true⟩ (1/2) rfl (by decide) (by decide) rfl
    (by
      have h1 : ¬ ((50 : ℕ) > 150) := by decide
      have h2 : ¬ ((50 : ℕ) > 100) := by decide
      have h3 : usub 150 100 = 50 := by decide
      have h4 : usub 150 50 = 100 := by decide
      simp only [calcPeriodRatio, h1, h2, if_neg, if_false, h3, h4]
      norm_num)
    (by norm_num) (by decide)

/-! ### C8: the cycle function applied twice with identical inputs -/

/-- C8 amended: the per-cycle transition function is idempotent on
no-op cycles: whenever a cycle leaves the run state unchanged, applying
the cycle again with identical inputs reproduces exactly the same
controller state and the same relay actuations (no hidden counter
advances; with no time advance even `actualRatio` recomputes to the same
value).  On a cycle that does transition, the second application can
differ — see the counterexample. -/
theorem step_idempotent_on_noop (inp : CycleInput) (s : CState)
    (h : (step inp s).1.runState = s.runState) :
    step inp (step inp s).1 = step inp s := by
  have hA := assimilate_runState inp s
  have hb := assimilate_SSbedroom inp s
  have ho := assimilate_SSoffice inp s
  have hk := assimilate_SSkitchen inp s
  have hf := assimilate_SSfurnace inp s
  cases hrs : (assimilate inp s).runState with
  | Running =>
      have hs : s.runState = RunState.Running := by rw [← hA, hrs]
      have hstep : step inp s = stepRunning inp (assimilate inp s) := by
        unfold step
        rw [dispatch_running _ _ hrs]
      rw [hstep] at h ⊢
      rw [hs] at h
      by_cases hc1 : inp.adjustmentEnabled = true ∧
          ratioNow inp (assimilate inp s) > inp.desiredRatio
      · by_cases hc2 : offCondition (assimilate inp s).SSbedroom
            (assimilate inp s).SSoffice (assimilate inp s).SSfurnace
            (assimilate inp s).SSkitchen inp.now
            (assimilate inp s).doorComplete = true
        · have hc3 : ¬ (inp.adjustmentEnabled = true ∧
              ratioNow inp (assimilate inp s) < inp.desiredRatio) := by
            rintro ⟨-, hlt⟩
            exact absurd hc1.2 (not_lt.mpr (le_of_lt hlt))
          have hrsval : (stepRunning inp (assimilate inp s)).1.runState =
              RunState.notRunning := by
            simp only [stepRunning, if_pos hc1, if_pos hc2, if_neg hc3]
          rw [hrsval] at h
          simp at h
        · have hrsval : (stepRunning inp (assimilate inp s)).1.runState =
              RunState.notRunningAdjusting := by
            simp only [stepRunning, if_pos hc1, if_neg hc2]
          rw [hrsval] at h
          simp at h
      · by_cases hc2 : offCondition (assimilate inp s).SSbedroom
            (assimilate inp s).SSoffice (assimilate inp s).SSfurnace
            (assimilate inp s).SSkitchen inp.now
            (assimilate inp s).doorComplete = true
        · by_cases hc3 : inp.adjustmentEnabled = true ∧
              ratioNow inp (assimilate inp s) < inp.desiredRatio
          · have hrsval : (stepRunning inp (assimilate inp s)).1.runState =
                RunState.RunningAdjusting := by
              simp only [stepRunning, if_neg hc1, if_pos hc2, if_pos hc3]
            rw [hrsval] at h
            simp at h
          · have hrsval : (stepRunning inp (assimilate inp s)).1.runState =
                RunState.notRunning := by
              simp only [stepRunning, if_neg hc1, if_pos hc2, if_neg hc3]
            rw [hrsval] at h
            simp at h
        · have hval : stepRunning inp (assimilate inp s) =
              ({ assimilate inp s with
                  actualRatio := ratioNow inp (assimilate inp s) }, []) := by
            simp only [stepRunning, if_neg hc1, if_neg hc2]
          rw [hval]
          show step inp
              { assimilate inp s with
                  actualRatio := ratioNow inp (assimilate inp s) } =
            ({ assimilate inp s with
                actualRatio := ratioNow inp (assimilate inp s) }, [])
          have hfix : assimilate inp
              { assimilate inp s with
                  actualRatio := ratioNow inp (assimilate inp s) } =
              { assimilate inp s with
                  actualRatio := ratioNow inp (assimilate inp s) } := by
            apply assimilate_fix
            · exact hb
            · exact ho
            · exact hf
            · exact hk
            · exact fun h0 _ => assimilate_onPeriodStart_zero inp s h0 hs
            · exact fun h0 => assimilate_totPeriodStart_zero inp s h0
          unfold step
          rw [hfix, dispatch_running inp
            { assimilate inp s with
                actualRatio := ratioNow inp (assimilate inp s) } hrs]
          have hr' : ratioNow inp
              { assimilate inp s with
                  actualRatio := ratioNow inp (assimilate inp s) } =
              ratioNow inp (assimilate inp s) :=
            ratioNow_congr inp _ _ rfl rfl
          simp only [stepRunning, hr', if_neg hc1, if_neg hc2]
  | notRunning =>
      have hs : s.runState = RunState.notRunning := by rw [← hA, hrs]
      have hstep : step inp s = stepNotRunning inp (assimilate inp s) := by
        unfold step
        rw [dispatch_notRunning _ _ hrs]
      rw [hstep] at h ⊢
      rw [hs] at h
      by_cases hc : (!(assimilate inp s).SSbedroom &&
          !(assimilate inp s).SSoffice && !(assimilate inp s).SSfurnace &&
          (!(assimilate inp s).SSkitchen &&
            decide (inp.now > (assimilate inp s).doorComplete))) = true
      · have hrsval : (stepNotRunning inp (assimilate inp s)).1.runState =
            RunState.Running := by
          simp only [stepNotRunning, if_pos hc]
        rw [hrsval] at h
        simp at h
      · have hval : stepNotRunning inp (assimilate inp s) =
            (assimilate inp s, []) := by
          simp only [stepNotRunning, if_neg hc]
        rw [hval]
        show step inp (assimilate inp s) = (assimilate inp s, [])
        have hfix : assimilate inp (assimilate inp s) = assimilate inp s := by
          apply assimilate_fix
          · exact hb
          · exact ho
          · exact hf
          · exact hk
          · exact fun _ hrun => absurd (hrs.symm.trans hrun) (by decide)
          · exact fun h0 => assimilate_totPeriodStart_zero inp s h0
        unfold step
        rw [hfix, dispatch_notRunning _ _ hrs]
        exact hval
  | RunningAdjusting =>
      have hs : s.runState = RunState.RunningAdjusting := by rw [← hA, hrs]
      have hstep : step inp s = stepRunningAdjusting inp (assimilate inp s) := by
        unfold step
        rw [dispatch_runningAdjusting _ _ hrs]
      rw [hstep] at h ⊢
      rw [hs] at h
      by_cases hc : ratioNow inp (assimilate inp s) > inp.desiredRatio ∨
          inp.adjustmentEnabled = false
      · have hrsval : (stepRunningAdjusting inp (assimilate inp s)).1.runState =
            RunState.notRunning := by
          simp only [stepRunningAdjusting, if_pos hc]
        rw [hrsval] at h
        simp at h
      · have hval : stepRunningAdjusting inp (assimilate inp s) =
            ({ assimilate inp s with
                actualRatio := ratioNow inp (assimilate inp s) }, []) := by
          simp only [stepRunningAdjusting, if_neg hc]
        rw [hval]
        show step inp
            { assimilate inp s with
                actualRatio := ratioNow inp (assimilate inp s) } =
          ({ assimilate inp s with
              actualRatio := ratioNow inp (assimilate inp s) }, [])
        have hfix : assimilate inp
            { assimilate inp s with
                actualRatio := ratioNow inp (assimilate inp s) } =
            { assimilate inp s with
                actualRatio := ratioNow inp (assimilate inp s) } := by
          apply assimilate_fix
          · exact hb
          · exact ho
          · exact hf
          · exact hk
          · exact fun _ hrun => absurd (hrs.symm.trans hrun) (by decide)
          · exact fun h0 => assimilate_totPeriodStart_zero inp s h0
        unfold step
        rw [hfix, dispatch_runningAdjusting inp
          { assimilate inp s with
              actualRatio := ratioNow inp (assimilate inp s) } hrs]
        have hr' : ratioNow inp
            { assimilate inp s with
                actualRatio := ratioNow inp (assimilate inp s) } =
            ratioNow inp (assimilate inp s) :=
          ratioNow_congr inp _ _ rfl rfl
        simp only [stepRunningAdjusting, hr', if_neg hc]
  | notRunningAdjusting =>
      have hs : s.runState = RunState.notRunningAdjusting := by rw [← hA, hrs]
      have hstep : step inp s = stepNotRunningAdjusting inp (assimilate inp s) := by
        unfold step
        rw [dispatch_notRunningAdjusting _ _ hrs]
      rw [hstep] at h ⊢
      rw [hs] at h
      by_cases hc : offCondition (assimilate inp s).SSbedroom
          (assimilate inp s).SSoffice (assimilate inp s).SSfurnace
          (assimilate inp s).SSkitchen inp.now
          (assimilate inp s).doorComplete = true
      · have hrsval : (stepNotRunningAdjusting inp (assimilate inp s)).1.runState =
            RunState.notRunning := by
          simp only [stepNotRunningAdjusting, if_pos hc]
        rw [hrsval] at h
        simp at h
      · have hval : stepNotRunningAdjusting inp (assimilate inp s) =
            ({ assimilate inp s with SSrunning := false, relayOn := false },
              [false]) := by
          simp only [stepNotRunningAdjusting, if_neg hc]
        rw [hval]
        show step inp
            { assimilate inp s with SSrunning := false, relayOn := false } =
          ({ assimilate inp s with SSrunning := false, relayOn := false },
            [false])
        have hfix : assimilate inp
            { assimilate inp s with SSrunning := false, relayOn := false } =
            { assimilate inp s with SSrunning := false, relayOn := false } := by
          apply assimilate_fix
          · exact hb
          · exact ho
          · exact hf
          · exact hk
          · exact fun _ hrun => absurd (hrs.symm.trans hrun) (by decide)
          · exact fun h0 => assimilate_totPeriodStart_zero inp s h0
        unfold step
        rw [hfix, dispatch_notRunningAdjusting inp
          { assimilate inp s with SSrunning := false, relayOn := false } hrs]
        simp only [stepNotRunningAdjusting, if_neg hc]

/-- C8 counterexample: on the cycle where `Running` transitions to
`notRunningAdjusting` (adjustment enabled, ratio 1/2 above target 1/4,
no off-request), applying the transition function a second time with
identical inputs yields the same run state but a DIFFERENT relay
output: the first application leaves the relay ON (no call), the second
drives it OFF.  Twice is not the same as once over all run states. -/
theorem step_twice_differs_after_transition :
    (step ⟨false, false, false, false, 150, 1/4, true⟩
        (step ⟨false, false, false, false, 150, 1/4, true⟩
          ⟨RunState.Running, false, false, false, false, true, 1000,
            0, 0, 0, 100, 50, true⟩).1).1.runState =
      (step ⟨false, false, false, false, 150, 1/4, true⟩
        ⟨RunState.Running, false, false, false, false, true, 1000,
          0, 0, 0, 100, 50, true⟩).1.runState ∧
    (step ⟨false, false, false, false, 150, 1/4, true⟩
        (step ⟨false, false, false, false, 150, 1/4, true⟩
          ⟨RunState.Running, false, false, false, false, true, 1000,
            0, 0, 0, 100, 50, true⟩).1).1.relayOn ≠
      (step ⟨false, false, false, false, 150, 1/4, true⟩
        ⟨RunState.Running, false, false, false, false, true, 1000,
          0, 0, 0, 100, 50, true⟩).1.relayOn := by
  have hcalc : calcPeriodRatio 150 100 50 = some (1/2) := by
    have h1 : ¬ ((50 : ℕ) > 150) := by decide
    have h2 : ¬ ((50 : ℕ) > 100) := by decide
    have h3 : usub 150 100 = 50 := by decide
    have h4 : usub 150 50 = 100 := by decide
    simp only [calcPeriodRatio, h1, h2, if_neg, if_false, h3, h4]
    norm_num
  have hassim : assimilate ⟨false, false, false, false, 150, 1/4, true⟩
      ⟨RunState.Running, false, false, false, false, true, 1000,
        0, 0, 0, 100, 50, true⟩ =
      ⟨RunState.Running, false, false, false, false, true, 1000,
        0, 0, 0, 100, 50, true⟩ := by
    rw [assimilate_eq]
    norm_num [doorSensorUpdate]
  have hstep1 : step ⟨false, false, false, false, 150, 1/4, true⟩
      ⟨RunState.Running, false, false, false, false, true, 1000,
        0, 0, 0, 100, 50, true⟩ =
      (⟨RunState.notRunningAdjusting, false, false, false, false, true, 1000,
        1/2, 0, 0, 100, 50, true⟩, []) := by
    unfold step
    rw [hassim, dispatch_running _ _ rfl]
    simp only [stepRunning, ratioNow, hcalc]
    norm_num [offCondition]
  have hassim2 : assimilate ⟨false, false, false, false, 150, 1/4, true⟩
      ⟨RunState.notRunningAdjusting, false, false, false, false, true, 1000,
        1/2, 0, 0, 100, 50, true⟩ =
      ⟨RunState.notRunningAdjusting, false, false, false, false, true, 1000,
        1/2, 0, 0, 100, 50, true⟩ := by
    rw [assimilate_eq]
    norm_num [doorSensorUpdate]
  have hstep2 : step ⟨false, false, false, false, 150, 1/4, true⟩
      ⟨RunState.notRunningAdjusting, false, false, false, false, true, 1000,
        1/2, 0, 0, 100, 50, true⟩ =
      (⟨RunState.notRunningAdjusting, false, false, false, false, false, 1000,
        1/2, 0, 0, 100, 50, false⟩, [false]) := by
    unfold step
    rw [hassim2, dispatch_notRunningAdjusting _ _ rfl]
    simp only [stepNotRunningAdjusting]
    norm_num [offCondition]
  rw [hstep1]
  simp only []
  rw [hstep2]
  exact ⟨rfl, by simp⟩

/-- C8 amended, witness: a quiescent `notRunning` cycle (bedroom open
keeps the fan off, nothing transitions) is reproduced exactly by a
second application with the same inputs. -/
theorem step_idempotent_on_noop_witness :
    step ⟨true, false, false, false, 150, 1/4, false⟩
        (step ⟨true, false, false, false, 150, 1/4, false⟩
          ⟨RunState.notRunning, true, false, false, false, false, 1000,
            0, 0, 0, 100, 50, false⟩).1 =
      step ⟨true, false, false, false, 150, 1/4, false⟩
        ⟨RunState.notRunning, true, false, false, false, false, 1000,
          0, 0, 0, 100, 50, false⟩ :=
  step_idempotent_on_noop ⟨true, false, false, false, 150, 1/4, false⟩
    ⟨RunState.notRunning, true, false, false, false, false, 1000,
      0, 0, 0, 100, 50, false⟩ (by decide)
